import Mathlib

/-!
Verification of the licensing / balance / referral core of the repository.

The development shallowly embeds the Rust services:
* `src/src/entity/{user,license,transaction}.rs` — the data model;
* `src/src/sv/balance.rs` — the balance ledger (`Balance::deposit`, `spend`,
  `add_referral_bonus`, `add_cashback`, `withdraw`);
* `src/src/sv/referral.rs` — `Referral::record_sale`;
* `src/src/sv/license.rs` — `License::create`, `create_gift`, `validate`,
  `expires`, `link_to_user` and `sv/user.rs` `User::get_or_create`;
* `src/src/handlers.rs` — the `heartbeat` HTTP handler over the in-memory
  session map;
* the referral-credit and refund-compensation blocks of
  `src/src/plugins/telegram/callback.rs` (`handle_buy_plan`,
  `handle_extend_plan`).

Database tables keyed by a primary key are modelled as partial maps; the
append-only transaction log is a list.  A sea-orm transaction that returns
early with an error rolls back, so every fallible operation is embedded in
state-passing style `DB → … → DB × Except Error α` where the first component
is the *committed* database state (unchanged on error).  Timestamps are
integers counting seconds; `Utc::now()` becomes an explicit `now` argument,
and `Uuid::new_v4()` an explicit fresh-key argument.  Rust `i64`/`i32`
arithmetic is embedded as `Int` (no overflow occurs in the claims' scope);
Rust's truncating integer division `/` is `Int.tdiv`.
-/

/-- User roles (`src/src/entity/user.rs`, `UserRole`). -/
inductive UserRole where
  | user
  | creator
  | admin
deriving DecidableEq, Repr

/-- A row of the `users` table (`src/src/entity/user.rs`, `Model`). -/
structure UserModel where
  tgUserId : Int
  regDate : Int
  balance : Int
  role : UserRole
  referredBy : Option Int
  commissionRate : Int
  discountPercent : Int
  referralSales : Int
  referralEarnings : Int
  referralCode : Option String
deriving DecidableEq, Repr

/-- Transaction kinds (`src/src/entity/transaction.rs`, `TransactionType`). -/
inductive TransactionType where
  | deposit
  | purchase
  | referralBonus
  | cashback
  | withdrawal
deriving DecidableEq, Repr

/-- A row of the `transactions` table (`src/src/entity/transaction.rs`,
`Model`); the auto-increment `id` is the position in the log. -/
structure Transaction where
  userId : Int
  amount : Int
  txType : TransactionType
  description : Option String
  referralCode : Option String
  createdAt : Int
deriving DecidableEq, Repr

/-- License tiers (`src/src/entity/license.rs`, `LicenseType`). -/
inductive LicenseType where
  | trial
  | pro
deriving DecidableEq, Repr

/-- A row of the `licenses` table (`src/src/entity/license.rs`, `Model`). -/
structure LicenseModel where
  key : String
  tgUserId : Int
  licenseType : LicenseType
  expiresAt : Int
  isBlocked : Bool
  createdAt : Int
  maxSessions : Int
deriving DecidableEq, Repr

/-- The error variants of `src/src/error.rs` used by the embedded services. -/
inductive Error where
  | userNotFound
  | insufficientBalance
  | withdrawalNotAllowed
  | invalidArgs (msg : String)
  | licenseNotFound
  | licenseInvalid
  | licenseAlreadyLinked
  | referralNotFound
deriving DecidableEq, Repr

/-- The persistent database state: the `users` and `licenses` tables as
partial maps keyed by their primary keys, and the append-only
`transactions` log. -/
structure DB where
  users : Int → Option UserModel
  transactions : List Transaction
  licenses : String → Option LicenseModel

/-- UPDATE/INSERT of the `users` row with primary key `userId`
(sea-orm `ActiveModel::update`/`insert` keyed on `tg_user_id`). -/
def DB.setUser (db : DB) (userId : Int) (u : UserModel) : DB :=
  { db with users := fun i => if i = userId then some u else db.users i }

/-- INSERT of a transaction row (append to the log). -/
def DB.insertTransaction (db : DB) (t : Transaction) : DB :=
  { db with transactions := db.transactions ++ [t] }

/-- UPDATE/INSERT of the `licenses` row with primary key `key`. -/
def DB.setLicense (db : DB) (key : String) (l : LicenseModel) : DB :=
  { db with licenses := fun k => if k = key then some l else db.licenses k }

/-- `Balance::deposit` (`src/src/sv/balance.rs` lines 24–62). -/
def Balance.deposit (db : DB) (userId amount : Int)
    (description : Option String) (now : Int) : DB × Except Error Int :=
  if amount ≤ 0 then
    (db, .error (.invalidArgs "Deposit amount must be positive"))
  else
    match db.users userId with
    | none => (db, .error .userNotFound)
    | some u =>
      let newBalance := u.balance + amount
      let db := db.setUser userId { u with balance := newBalance }
      let db := db.insertTransaction
        { userId := userId, amount := amount, txType := .deposit,
          description := description, referralCode := none, createdAt := now }
      (db, .ok newBalance)

/-- `Balance::spend` (`src/src/sv/balance.rs` lines 64–107). -/
def Balance.spend (db : DB) (userId amount : Int)
    (description referralCode : Option String) (now : Int) :
    DB × Except Error Int :=
  if amount ≤ 0 then
    (db, .error (.invalidArgs "Spend amount must be positive"))
  else
    match db.users userId with
    | none => (db, .error .userNotFound)
    | some u =>
      if u.balance < amount then (db, .error .insufficientBalance)
      else
        let newBalance := u.balance - amount
        let db := db.setUser userId { u with balance := newBalance }
        let db := db.insertTransaction
          { userId := userId, amount := -amount, txType := .purchase,
            description := description, referralCode := referralCode,
            createdAt := now }
        (db, .ok newBalance)

/-- `Balance::add_referral_bonus` (`src/src/sv/balance.rs` lines 109–150). -/
def Balance.addReferralBonus (db : DB) (userId amount : Int)
    (referralCode : String) (now : Int) : DB × Except Error Int :=
  if amount ≤ 0 then
    (db, .error (.invalidArgs "Bonus amount must be positive"))
  else
    match db.users userId with
    | none => (db, .error .userNotFound)
    | some u =>
      let newBalance := u.balance + amount
      let db := db.setUser userId { u with balance := newBalance }
      let db := db.insertTransaction
        { userId := userId, amount := amount, txType := .referralBonus,
          description := some ("Referral bonus from code " ++ referralCode),
          referralCode := some referralCode, createdAt := now }
      (db, .ok newBalance)

/-- `Balance::add_cashback` (`src/src/sv/balance.rs` lines 152–192). -/
def Balance.addCashback (db : DB) (userId amount : Int)
    (description : Option String) (now : Int) : DB × Except Error Int :=
  if amount ≤ 0 then
    (db, .error (.invalidArgs "Cashback amount must be positive"))
  else
    match db.users userId with
    | none => (db, .error .userNotFound)
    | some u =>
      let newBalance := u.balance + amount
      let db := db.setUser userId { u with balance := newBalance }
      let db := db.insertTransaction
        { userId := userId, amount := amount, txType := .cashback,
          description := description, referralCode := none, createdAt := now }
      (db, .ok newBalance)

/-- `Balance::withdraw` (`src/src/sv/balance.rs` lines 194–237). -/
def Balance.withdraw (db : DB) (userId amount : Int) (now : Int) :
    DB × Except Error Int :=
  if amount ≤ 0 then
    (db, .error (.invalidArgs "Withdrawal amount must be positive"))
  else
    match db.users userId with
    | none => (db, .error .userNotFound)
    | some u =>
      if u.role ≠ .creator ∧ u.role ≠ .admin then
        (db, .error .withdrawalNotAllowed)
      else if u.balance < amount then (db, .error .insufficientBalance)
      else
        let newBalance := u.balance - amount
        let db := db.setUser userId { u with balance := newBalance }
        let db := db.insertTransaction
          { userId := userId, amount := -amount, txType := .withdrawal,
            description := some "Crypto withdrawal", referralCode := none,
            createdAt := now }
        (db, .ok newBalance)

/-- `Referral::record_sale` (`src/src/sv/referral.rs` lines 73–98): commission
is credited straight onto the referrer's cached balance together with the
counter increments, in one transaction — note that *no* row is inserted into
the transaction log. -/
def Referral.recordSale (db : DB) (referrerId saleAmount : Int) :
    DB × Except Error Int :=
  match db.users referrerId with
  | none => (db, .error .referralNotFound)
  | some r =>
    let commission := Int.tdiv (saleAmount * r.commissionRate) 100
    let db := db.setUser referrerId
      { r with
        referralSales := r.referralSales + 1,
        referralEarnings := r.referralEarnings + commission,
        balance := r.balance + commission }
    (db, .ok commission)

deriving instance DecidableEq for Except

/-- `User::get_or_create` (`src/src/sv/user.rs` lines 15–37): look the user up
and insert a fresh default row when absent. -/
def User.getOrCreate (db : DB) (tgUserId now : Int) : DB × UserModel :=
  match db.users tgUserId with
  | some u => (db, u)
  | none =>
    let u : UserModel :=
      { tgUserId := tgUserId, regDate := now, balance := 0, role := .user,
        referredBy := none, commissionRate := 10, discountPercent := 3,
        referralSales := 0, referralEarnings := 0, referralCode := none }
    (db.setUser tgUserId u, u)

/-- `License::create` (`src/src/sv/license.rs` lines 18–41): the fresh
`Uuid::new_v4()` is the explicit `key` argument; `Duration::from_hours(24 *
days)` is `24 * days * 3600` seconds.  The stored `max_sessions` is the
constant `1`. -/
def License.create (db : DB) (tgUserId : Int) (ty : LicenseType)
    (days : Nat) (now : Int) (key : String) : DB × LicenseModel :=
  let db := (User.getOrCreate db tgUserId now).1
  let expiresAt := now + 24 * (days : Int) * 3600
  let lic : LicenseModel :=
    { key := key, tgUserId := tgUserId, licenseType := ty,
      isBlocked := false, expiresAt := expiresAt, createdAt := now,
      maxSessions := 1 }
  (db.setLicense key lic, lic)

/-- `License::create_gift` (`src/src/sv/license.rs` lines 50–73): like
`create` but owned by the placeholder user `0`; `max_sessions` is again the
constant `1`. -/
def License.createGift (db : DB) (ty : LicenseType) (days : Nat)
    (now : Int) (key : String) : DB × LicenseModel :=
  let db := (User.getOrCreate db 0 now).1
  let expiresAt := now + 24 * (days : Int) * 3600
  let lic : LicenseModel :=
    { key := key, tgUserId := 0, licenseType := ty, isBlocked := false,
      expiresAt := expiresAt, createdAt := now, maxSessions := 1 }
  (db.setLicense key lic, lic)

/-- `License::validate` (`src/src/sv/license.rs` lines 95–107): a read-only
lookup; the database component of the state-passing result is the input
state, mirroring that the source performs no write. -/
def License.validate (db : DB) (key : String) (now : Int) :
    DB × Except Error LicenseModel :=
  (db,
    match db.licenses key with
    | none => .error .licenseNotFound
    | some lic =>
      if lic.isBlocked = true ∨ lic.expiresAt < now then .error .licenseInvalid
      else .ok lic)

/-- `License::expires` (`src/src/sv/license.rs` lines 109–134): extension sets
`expires_at := now + duration` and clears `is_blocked`.  `duration` is a
nonnegative `std::time::Duration`, in seconds. -/
def License.expires (db : DB) (key : String) (duration : Nat) (now : Int) :
    DB × Except Error Int :=
  match db.licenses key with
  | none => (db, .error .licenseNotFound)
  | some lic =>
    let newExp := now + (duration : Int)
    ((db.setLicense key { lic with expiresAt := newExp, isBlocked := false }),
      .ok newExp)

/-- `License::link_to_user` (`src/src/sv/license.rs` lines 174–213).  The
caller's user row is created first (`get_or_create` persists even when the
link then fails); tgUserId `0` is the unlinked sentinel, and a first link
restarts the validity clock from `now`. -/
def License.linkToUser (db : DB) (key : String) (tgUserId now : Int) :
    DB × Except Error LicenseModel :=
  let db := (User.getOrCreate db tgUserId now).1
  match db.licenses key with
  | none => (db, .error .licenseNotFound)
  | some lic =>
    if lic.tgUserId ≠ 0 ∧ lic.tgUserId ≠ tgUserId then
      (db, .error .licenseAlreadyLinked)
    else
      let expiresAt :=
        if lic.tgUserId = 0 then now + (lic.expiresAt - lic.createdAt)
        else lic.expiresAt
      let updated := { lic with tgUserId := tgUserId, expiresAt := expiresAt }
      (db.setLicense key updated, .ok updated)

/-- An in-memory session (`src/src/handlers.rs`, `crate::model::Session` as
used by the handler: `machine_id`, `last_seen`). -/
structure Session where
  machineId : String
  lastSeen : Int
deriving DecidableEq, Repr

/-- The `DashMap<String, Vec<Session>>` of `app.sessions`, as an association
list from license key to session group. -/
abbrev Sessions := List (String × List Session)

/-- Group lookup (`app.sessions.get_mut(&req.key)`). -/
def Sessions.lookup : Sessions → String → Option (List Session)
  | [], _ => none
  | (k, g) :: rest, key => if k = key then some g else Sessions.lookup rest key

/-- Store a (possibly new) group under `key`
(`app.sessions.entry(key).or_insert_with(Vec::new)` followed by in-place
mutation of the stored vector). -/
def Sessions.setGroup : Sessions → String → List Session → Sessions
  | [], key, g => [(key, g)]
  | (k, g0) :: rest, key, g =>
    if k = key then (key, g) :: rest
    else (k, g0) :: Sessions.setGroup rest key g

/-- `sessions.iter_mut().find(|sess| sess.machine_id == req.machine_id)`
followed by `sess.last_seen = now`: refresh the first matching session. -/
def refreshFirst : List Session → String → Int → List Session
  | [], _, _ => []
  | s :: rest, machineId, now =>
    if s.machineId = machineId then { s with lastSeen := now } :: rest
    else s :: refreshFirst rest machineId now

/-- The HTTP reply body of the heartbeat handler (`Status` in
`src/src/handlers.rs`). -/
structure HbStatus where
  success : Bool
  msg : Option String
deriving DecidableEq, Repr

/-- The `heartbeat` handler (`src/src/handlers.rs` lines 16–65), returning the
updated session map, the HTTP status code and the reply body.  The license
table read (`SELECT * FROM licenses WHERE key = ?`) is the `licenses`
lookup argument; a missing row yields 401, a blocked or expired license 403.
The group is pruned of sessions idle for 60 seconds or more, then the
hardcoded limit of 5 live sessions is enforced. -/
def heartbeat (sessions : Sessions)
    (licenses : String → Option LicenseModel)
    (key machineId : String) (now : Int) : Sessions × Nat × HbStatus :=
  let hot : Bool :=
    match Sessions.lookup sessions key with
    | some g => g.any fun s => s.machineId = machineId
    | none => false
  if hot then
    let g := (Sessions.lookup sessions key).getD []
    (Sessions.setGroup sessions key (refreshFirst g machineId now), 200,
      { success := true, msg := none })
  else
    match licenses key with
    | none => (sessions, 401, { success := false, msg := some "Invalid key" })
    | some lic =>
      if lic.isBlocked = true ∨ lic.expiresAt < now then
        (sessions, 403,
          { success := false, msg := some "Expired or blocked" })
      else
        let entry := (Sessions.lookup sessions key).getD []
        let pruned := entry.filter fun s => now - s.lastSeen < 60
        if 5 ≤ pruned.length then
          (Sessions.setGroup sessions key pruned, 409,
            { success := false, msg := some "Limit reached" })
        else
          (Sessions.setGroup sessions key
            (pruned ++ [{ machineId := machineId, lastSeen := now }]), 200,
            { success := true, msg := none })

/-- The referral-commission block of `handle_buy_plan`
(`src/src/plugins/telegram/callback.rs` lines 860–872, identical in
`handle_extend_plan` lines 1470–1480), run after a successful spend when the
buyer has a referrer: `record_sale` first (already crediting the commission
onto the referrer's balance), then the referrer is re-read and
`add_referral_bonus` credits `price * commission_rate / 100` a second time.
The source drops errors with `let _ = …`, which the state-passing embedding
reflects by keeping the prior state on error. -/
def buyPlanReferralCredit (db : DB) (buyerId referrerId price now : Int) :
    DB :=
  let db := (Referral.recordSale db referrerId price).1
  match db.users referrerId with
  | none => db
  | some referrer =>
    let commission := Int.tdiv (price * referrer.commissionRate) 100
    (Balance.addReferralBonus db referrerId commission (toString buyerId)
      now).1

/-- The compensation branch of `handle_buy_plan`
(`src/src/plugins/telegram/callback.rs` lines 905–919): when license creation
fails after a successful spend, the full charged price is deposited back with
an identifying note; the deposit's own error is dropped (`let _ = …`). -/
def buyPlanRefund (db : DB) (buyerId price now : Int) : DB :=
  (Balance.deposit db buyerId price (some "Refund: license creation failed")
    now).1

/-- The compensation branch of `handle_extend_plan`
(`src/src/plugins/telegram/callback.rs` lines 1508–1521). -/
def extendPlanRefund (db : DB) (buyerId price now : Int) : DB :=
  (Balance.deposit db buyerId price (some "Refund: license extension failed")
    now).1

theorem getOrCreate_licenses (db : DB) (tgUserId now : Int) :
    (User.getOrCreate db tgUserId now).1.licenses = db.licenses := by
  cases hx : db.users tgUserId <;>
    simp [User.getOrCreate, hx, DB.setUser]

/-- C10: every license record produced by `License::create` or
`License::create_gift` carries `maxSessions = 1`, whatever the owner, tier
and duration, both in the returned model and in the stored row. -/
theorem create_maxSessions_eq_one (db : DB) (tgUserId : Int)
    (ty : LicenseType) (days : Nat) (now : Int) (key : String) :
    (License.create db tgUserId ty days now key).2.maxSessions = 1
    ∧ (License.createGift db ty days now key).2.maxSessions = 1
    ∧ (License.create db tgUserId ty days now key).1.licenses key
        = some (License.create db tgUserId ty days now key).2
    ∧ (License.createGift db ty days now key).1.licenses key
        = some (License.createGift db ty days now key).2 := by
  refine ⟨rfl, rfl, ?_, ?_⟩ <;>
    simp [License.create, License.createGift, DB.setLicense]

/-- C4: for an existing user and a positive amount, `spend` fails with
`InsufficientBalance` exactly when `amount > balance`; on that failure the
database (balance and transaction log) is unchanged, and on success it
returns `balance - amount`, updates only the balance and appends exactly one
`Purchase` transaction of amount `-amount`. -/
theorem spend_insufficient_iff (db : DB) (userId amount : Int)
    (description referralCode : Option String) (now : Int) (u : UserModel)
    (hu : db.users userId = some u) (hpos : 0 < amount) :
    ((Balance.spend db userId amount description referralCode now).2
        = .error .insufficientBalance ↔ amount > u.balance)
    ∧ (amount > u.balance →
        (Balance.spend db userId amount description referralCode now).1 = db)
    ∧ (amount ≤ u.balance →
        Balance.spend db userId amount description referralCode now
          = ((db.setUser userId
                { u with balance := u.balance - amount }).insertTransaction
              { userId := userId, amount := -amount, txType := .purchase,
                description := description, referralCode := referralCode,
                createdAt := now },
             .ok (u.balance - amount))) := by
  have hnle : ¬ amount ≤ 0 := not_le.mpr hpos
  by_cases hb : u.balance < amount
  · refine ⟨?_, fun _ => ?_, fun hle => absurd hb (not_lt.mpr hle)⟩ <;>
      simp [Balance.spend, hnle, hu, hb]
  · refine ⟨?_, fun hgt => absurd hgt (not_lt.mpr (not_lt.mp hb)), fun _ => ?_⟩ <;>
      simp [Balance.spend, hnle, hu, hb]

/-- Witness for `spend_insufficient_iff` at a concrete database. -/
theorem spend_insufficient_iff_witness :
    let u : UserModel :=
      { tgUserId := 1, regDate := 0, balance := 30, role := .user,
        referredBy := none, commissionRate := 10, discountPercent := 3,
        referralSales := 0, referralEarnings := 0, referralCode := none }
    let db : DB :=
      { users := fun i => if i = 1 then some u else none,
        transactions := [], licenses := fun _ => none }
    ((Balance.spend db 1 40 none none 5).2 = .error .insufficientBalance
        ↔ (40 : Int) > u.balance)
    ∧ ((40 : Int) > u.balance → (Balance.spend db 1 40 none none 5).1 = db)
    ∧ ((40 : Int) ≤ u.balance →
        Balance.spend db 1 40 none none 5
          = ((db.setUser 1
                { u with balance := u.balance - 40 }).insertTransaction
              { userId := 1, amount := -40, txType := .purchase,
                description := none, referralCode := none, createdAt := 5 },
             .ok (u.balance - 40))) :=
  spend_insufficient_iff _ 1 40 none none 5 _ rfl (by decide)

/-- C9: for an existing user and a positive amount, `withdraw` fails with
`WithdrawalNotAllowed` unless the role is Creator or Admin, fails with
`InsufficientBalance` for a Creator/Admin when `amount > balance`, and
otherwise debits the balance and appends exactly one `Withdrawal`
transaction; both failures leave the database unchanged. -/
theorem withdraw_spec (db : DB) (userId amount now : Int) (u : UserModel)
    (hu : db.users userId = some u) (hpos : 0 < amount) :
    (¬(u.role = .creator ∨ u.role = .admin) →
      Balance.withdraw db userId amount now
        = (db, .error .withdrawalNotAllowed))
    ∧ ((u.role = .creator ∨ u.role = .admin) → amount > u.balance →
      Balance.withdraw db userId amount now
        = (db, .error .insufficientBalance))
    ∧ ((u.role = .creator ∨ u.role = .admin) → amount ≤ u.balance →
      Balance.withdraw db userId amount now
        = ((db.setUser userId
              { u with balance := u.balance - amount }).insertTransaction
            { userId := userId, amount := -amount, txType := .withdrawal,
              description := some "Crypto withdrawal", referralCode := none,
              createdAt := now },
           .ok (u.balance - amount))) := by
  have hnle : ¬ amount ≤ 0 := not_le.mpr hpos
  refine ⟨fun hrole => ?_, fun hrole hgt => ?_, fun hrole hle => ?_⟩
  · push_neg at hrole
    simp [Balance.withdraw, hnle, hu, hrole.1, hrole.2]
  · have hlt : u.balance < amount := hgt
    have : ¬ (u.role ≠ .creator ∧ u.role ≠ .admin) := by
      rcases hrole with h | h <;> simp [h]
    simp [Balance.withdraw, hnle, hu, this, hlt]
  · have : ¬ (u.role ≠ .creator ∧ u.role ≠ .admin) := by
      rcases hrole with h | h <;> simp [h]
    simp [Balance.withdraw, hnle, hu, this, not_lt.mpr hle]

/-- Witness for `withdraw_spec` at a concrete database. -/
theorem withdraw_spec_witness :
    let u : UserModel :=
      { tgUserId := 1, regDate := 0, balance := 30, role := .user,
        referredBy := none, commissionRate := 10, discountPercent := 3,
        referralSales := 0, referralEarnings := 0, referralCode := none }
    let db : DB :=
      { users := fun i => if i = 1 then some u else none,
        transactions := [], licenses := fun _ => none }
    ¬(u.role = .creator ∨ u.role = .admin) →
      Balance.withdraw db 1 10 0 = (db, .error .withdrawalNotAllowed) :=
  fun h => (withdraw_spec _ 1 10 0 _ rfl (by decide)).1 h

/-- C5: linking an unlinked license (owner sentinel 0) restarts the validity
clock at `now + (expiresAt - createdAt)`; re-linking by the same owner keeps
the expiry unchanged; linking by a different user fails with
`LicenseAlreadyLinked` and leaves the license table unchanged. -/
theorem linkToUser_spec (db : DB) (key : String) (tgUserId now : Int)
    (lic : LicenseModel) (hl : db.licenses key = some lic) :
    (lic.tgUserId = 0 →
      (License.linkToUser db key tgUserId now).2
        = .ok { lic with tgUserId := tgUserId,
                         expiresAt := now + (lic.expiresAt - lic.createdAt) })
    ∧ (lic.tgUserId = tgUserId → tgUserId ≠ 0 →
      (License.linkToUser db key tgUserId now).2
        = .ok { lic with tgUserId := tgUserId, expiresAt := lic.expiresAt })
    ∧ (lic.tgUserId ≠ 0 → lic.tgUserId ≠ tgUserId →
      (License.linkToUser db key tgUserId now).2 = .error .licenseAlreadyLinked
      ∧ (License.linkToUser db key tgUserId now).1.licenses = db.licenses) := by
  have hl1 : (User.getOrCreate db tgUserId now).1.licenses key = some lic := by
    rw [getOrCreate_licenses]; exact hl
  refine ⟨fun h0 => ?_, fun hsame hnz => ?_, fun hnz hne => ?_⟩
  · have hcond : ¬(lic.tgUserId ≠ 0 ∧ lic.tgUserId ≠ tgUserId) := by
      simp [h0]
    simp [License.linkToUser, hl1, hcond, h0]
  · have hcond : ¬(lic.tgUserId ≠ 0 ∧ lic.tgUserId ≠ tgUserId) := by
      simp [hsame]
    have h0 : ¬ lic.tgUserId = 0 := by rw [hsame]; exact hnz
    simp [License.linkToUser, hl1, hcond, h0, hsame, hnz]
  · constructor <;>
      simp [License.linkToUser, hl1, hnz, hne, getOrCreate_licenses]

/-- Witness for `linkToUser_spec`: a 30-day gift created at time 0 and linked
at time 5 days expires at 5 + 30 days, not at 30 days. -/
theorem linkToUser_spec_witness :
    let gift : LicenseModel :=
      { key := "k", tgUserId := 0, licenseType := .pro,
        expiresAt := 2592000, isBlocked := false, createdAt := 0,
        maxSessions := 1 }
    let db : DB :=
      { users := fun _ => none, transactions := [],
        licenses := fun k => if k = "k" then some gift else none }
    gift.tgUserId = 0 →
      (License.linkToUser db "k" 7 432000).2
        = .ok { gift with tgUserId := 7,
                          expiresAt := 432000 + (gift.expiresAt - gift.createdAt) } :=
  fun h0 => (linkToUser_spec _ "k" 7 432000 _ rfl).1 h0

theorem validate_lookup_eq (db : DB) (key : String) (now : Int)
    (lic : LicenseModel) (hl : db.licenses key = some lic) :
    (License.validate db key now).2
      = if lic.isBlocked = true ∨ lic.expiresAt < now then
          .error .licenseInvalid
        else .ok lic := by
  simp only [License.validate, hl]

/-- C6 counterexample: on a key with no license record, `validate` returns
`LicenseNotFound`, not `LicenseInvalid` as the claim's "otherwise returns
LicenseInvalid" requires. -/
theorem validate_notfound_counterexample :
    (License.validate
        { users := fun _ => none, transactions := [],
          licenses := fun _ => none } "missing" 0).2
      = .error .licenseNotFound
    ∧ (License.validate
        { users := fun _ => none, transactions := [],
          licenses := fun _ => none } "missing" 0).2
      ≠ .error .licenseInvalid := by
  exact ⟨rfl, by decide⟩

/-- C6 amended: `validate` returns the record exactly when the license
exists, is unblocked and is unexpired at call time; it returns
`LicenseNotFound` when the key is absent and `LicenseInvalid` when the
license is blocked or expired; and it never modifies the store (the
state-passing result keeps the database untouched). -/
theorem validate_spec (db : DB) (key : String) (now : Int) :
    (License.validate db key now).1 = db
    ∧ (∀ lic, (License.validate db key now).2 = .ok lic ↔
        db.licenses key = some lic ∧ lic.isBlocked = false
          ∧ ¬ lic.expiresAt < now)
    ∧ (db.licenses key = none →
        (License.validate db key now).2 = .error .licenseNotFound)
    ∧ (∀ lic, db.licenses key = some lic →
        (lic.isBlocked = true ∨ lic.expiresAt < now) →
        (License.validate db key now).2 = .error .licenseInvalid) := by
  refine ⟨rfl, fun lic => ?_, fun hnone => ?_, fun lic hl hbad => ?_⟩
  · constructor
    · intro h
      revert h
      cases hx : db.licenses key with
      | none =>
        intro h
        simp [License.validate, hx] at h
      | some l =>
        intro h
        rw [validate_lookup_eq db key now l hx] at h
        by_cases hb : l.isBlocked = true ∨ l.expiresAt < now
        · rw [if_pos hb] at h
          simp at h
        · rw [if_neg hb] at h
          push_neg at hb
          injection h with h
          subst h
          exact ⟨rfl, Bool.eq_false_iff.mpr hb.1, not_lt.mpr hb.2⟩
    · rintro ⟨hsl, hfb, hne⟩
      rw [validate_lookup_eq db key now lic hsl]
      rw [if_neg (not_or.mpr ⟨by simp [hfb], hne⟩)]
  · simp [License.validate, hnone]
  · rw [validate_lookup_eq db key now lic hl]
    simp [hbad]

theorem lookup_setGroup_self (sessions : Sessions) (key : String)
    (g : List Session) :
    Sessions.lookup (Sessions.setGroup sessions key g) key = some g := by
  induction sessions with
  | nil => simp [Sessions.setGroup, Sessions.lookup]
  | cons p rest ih =>
    obtain ⟨k, g0⟩ := p
    by_cases hk : k = key
    · simp [Sessions.setGroup, Sessions.lookup, hk]
    · simp [Sessions.setGroup, Sessions.lookup, hk, ih]

theorem refreshFirst_length (g : List Session) (machineId : String)
    (now : Int) : (refreshFirst g machineId now).length = g.length := by
  induction g with
  | nil => rfl
  | cons s rest ih =>
    by_cases hs : s.machineId = machineId <;>
      simp [refreshFirst, hs, ih]

theorem refreshFirst_machineIds (g : List Session) (machineId : String)
    (now : Int) :
    (refreshFirst g machineId now).map Session.machineId
      = g.map Session.machineId := by
  induction g with
  | nil => rfl
  | cons s rest ih =>
    by_cases hs : s.machineId = machineId <;>
      simp [refreshFirst, hs, ih]

/-- A sample valid license row used by the concrete heartbeat scenarios. -/
def hbDemoLicense : LicenseModel :=
  { key := "k", tgUserId := 1, licenseType := .pro, expiresAt := 1000000,
    isBlocked := false, createdAt := 0, maxSessions := 1 }

/-- A license table holding exactly `hbDemoLicense` under key "k". -/
def hbDemoTable : String → Option LicenseModel := fun k =>
  if k = "k" then some hbDemoLicense else none

/-- Five distinct fresh sessions at time 100. -/
def hbFullGroup : List Session :=
  [{ machineId := "a", lastSeen := 100 },
   { machineId := "b", lastSeen := 100 },
   { machineId := "c", lastSeen := 100 },
   { machineId := "d", lastSeen := 100 },
   { machineId := "e", lastSeen := 100 }]

/-- C8: a heartbeat from a device already present in the key's group
refreshes in place: the result does not depend on the license table at all,
the reply is 200/success, and the group keeps the same size and the same
device ids. -/
theorem heartbeat_refresh (sessions : Sessions)
    (L1 L2 : String → Option LicenseModel) (key machineId : String)
    (now : Int) (g : List Session)
    (hg : Sessions.lookup sessions key = some g)
    (hm : (g.any fun s => s.machineId = machineId) = true) :
    heartbeat sessions L1 key machineId now
      = heartbeat sessions L2 key machineId now
    ∧ (heartbeat sessions L1 key machineId now).2
        = (200, { success := true, msg := none })
    ∧ Sessions.lookup (heartbeat sessions L1 key machineId now).1 key
        = some (refreshFirst g machineId now)
    ∧ (refreshFirst g machineId now).length = g.length
    ∧ (refreshFirst g machineId now).map Session.machineId
        = g.map Session.machineId := by
  have hrun : ∀ L : String → Option LicenseModel,
      heartbeat sessions L key machineId now
        = (Sessions.setGroup sessions key (refreshFirst g machineId now),
           200, { success := true, msg := none }) := by
    intro L
    simp [heartbeat, hg, hm]
  refine ⟨(hrun L1).trans (hrun L2).symm, by rw [hrun L1], ?_,
    refreshFirst_length g machineId now,
    refreshFirst_machineIds g machineId now⟩
  rw [hrun L1]
  exact lookup_setGroup_self sessions key _

/-- Witness for `heartbeat_refresh`: a repeated heartbeat from device "a"
refreshes without growing the group, whatever the license table holds. -/
theorem heartbeat_refresh_witness :
    let g : List Session := [{ machineId := "a", lastSeen := 10 }]
    let sessions : Sessions := [("k", g)]
    heartbeat sessions (fun _ => none) "k" "a" 99
      = heartbeat sessions hbDemoTable "k" "a" 99
    ∧ (heartbeat sessions (fun _ => none) "k" "a" 99).2
        = (200, { success := true, msg := none })
    ∧ Sessions.lookup (heartbeat sessions (fun _ => none) "k" "a" 99).1 "k"
        = some (refreshFirst g "a" 99)
    ∧ (refreshFirst g "a" 99).length = g.length
    ∧ (refreshFirst g "a" 99).map Session.machineId
        = g.map Session.machineId :=
  heartbeat_refresh _ _ hbDemoTable "k" "a" 99 _ rfl (by decide)

/-- C1 counterexample: a license whose stored `maxSessions` is 1 (as every
license created by this repository is) already has one live session, yet a
heartbeat from a second distinct device is admitted with 200 rather than
rejected with the limit-reached reply: the handler compares against the
hardcoded constant 5, not the license's `maxSessions`. -/
theorem heartbeat_ignores_maxSessions :
    ((1 : Int) ≥ (1 : Int))
    ∧ (heartbeat [("k", [{ machineId := "a", lastSeen := 100 }])]
        (fun k => if k = "k" then
          some { key := "k", tgUserId := 1, licenseType := .pro,
                 expiresAt := 1000000, isBlocked := false, createdAt := 0,
                 maxSessions := 1 }
          else none) "k" "b" 100).2
      = (200, { success := true, msg := none })
    ∧ Sessions.lookup (heartbeat [("k", [{ machineId := "a", lastSeen := 100 }])]
        (fun k => if k = "k" then
          some { key := "k", tgUserId := 1, licenseType := .pro,
                 expiresAt := 1000000, isBlocked := false, createdAt := 0,
                 maxSessions := 1 }
          else none) "k" "b" 100).1 "k"
      = some [{ machineId := "a", lastSeen := 100 },
              { machineId := "b", lastSeen := 100 }] := by
  refine ⟨by decide, by decide, by decide⟩

/-- C1 (amended): for a heartbeat from a device not in the key's group and a
license that exists, is unblocked and unexpired, the handler prunes sessions
whose last-seen age reaches 60 seconds and then rejects with 409
"Limit reached" when the pruned group size is at least the hardcoded limit 5
(the stored `maxSessions` is ignored); otherwise it inserts the device and
admits with 200.  In particular at most 5 distinct devices are concurrently
admitted and a 6th fresh device is rejected. -/
theorem heartbeat_admission (sessions : Sessions)
    (L : String → Option LicenseModel) (key machineId : String) (now : Int)
    (lic : LicenseModel)
    (hmiss : ∀ g, Sessions.lookup sessions key = some g →
      (g.any fun s => s.machineId = machineId) = false)
    (hL : L key = some lic)
    (hok : ¬(lic.isBlocked = true ∨ lic.expiresAt < now)) :
    (5 ≤ (((Sessions.lookup sessions key).getD []).filter
          (fun s => now - s.lastSeen < 60)).length →
      heartbeat sessions L key machineId now
        = (Sessions.setGroup sessions key
            (((Sessions.lookup sessions key).getD []).filter
              fun s => now - s.lastSeen < 60), 409,
           { success := false, msg := some "Limit reached" }))
    ∧ ((((Sessions.lookup sessions key).getD []).filter
          (fun s => now - s.lastSeen < 60)).length < 5 →
      heartbeat sessions L key machineId now
        = (Sessions.setGroup sessions key
            ((((Sessions.lookup sessions key).getD []).filter
              fun s => now - s.lastSeen < 60)
              ++ [{ machineId := machineId, lastSeen := now }]), 200,
           { success := true, msg := none })) := by
  have hhot : (match Sessions.lookup sessions key with
      | some g => g.any fun s => s.machineId = machineId
      | none => false) = false := by
    cases hx : Sessions.lookup sessions key with
    | none => rfl
    | some g => exact hmiss g hx
  constructor
  · intro hge
    simp [heartbeat, hhot, hL, hok, hge]
  · intro hlt
    simp [heartbeat, hhot, hL, hok, not_le.mpr hlt, hlt]

/-- Witness for `heartbeat_admission`: with 5 fresh sessions a 6th distinct
device is rejected with the limit-reached reply. -/
theorem heartbeat_admission_witness :
    5 ≤ (((Sessions.lookup [("k", hbFullGroup)] "k").getD []).filter
          (fun s => (100 : Int) - s.lastSeen < 60)).length
    ∧ heartbeat [("k", hbFullGroup)] hbDemoTable "k" "f" 100
        = (Sessions.setGroup [("k", hbFullGroup)] "k"
            (((Sessions.lookup [("k", hbFullGroup)] "k").getD []).filter
              fun s => (100 : Int) - s.lastSeen < 60), 409,
           { success := false, msg := some "Limit reached" }) := by
  refine ⟨by decide, ?_⟩
  exact (heartbeat_admission [("k", hbFullGroup)] hbDemoTable "k" "f" 100
    hbDemoLicense
    (fun g hg => by
      rw [show Sessions.lookup [("k", hbFullGroup)] "k" = some hbFullGroup
        by decide] at hg
      injection hg with h
      rw [← h]
      decide)
    (by decide) (by decide)).1 (by decide)

/-- Sum of the amounts of one user's transaction rows. -/
def txSum (ts : List Transaction) (userId : Int) : Int :=
  ((ts.filter fun t => t.userId == userId).map Transaction.amount).sum

/-- The ledger invariant of the spec: every user's cached balance equals the
sum of that user's transaction amounts. -/
def BalanceInvariant (db : DB) : Prop :=
  ∀ userId u, db.users userId = some u →
    u.balance = txSum db.transactions userId

theorem txSum_append (ts1 ts2 : List Transaction) (userId : Int) :
    txSum (ts1 ++ ts2) userId = txSum ts1 userId + txSum ts2 userId := by
  simp [txSum, List.filter_append]

theorem txSum_singleton (t : Transaction) (userId : Int) :
    txSum [t] userId = if t.userId = userId then t.amount else 0 := by
  by_cases h : t.userId = userId <;> simp [txSum, h]

theorem invariant_setUser_insert (db : DB) (userId : Int) (u v : UserModel)
    (t : Transaction) (hu : db.users userId = some u)
    (hb : v.balance = u.balance + t.amount) (ht : t.userId = userId)
    (hinv : BalanceInvariant db) :
    BalanceInvariant ((db.setUser userId v).insertTransaction t) := by
  intro uid w hw
  simp only [DB.setUser, DB.insertTransaction] at hw ⊢
  rw [txSum_append, txSum_singleton]
  by_cases huid : uid = userId
  · subst huid
    rw [if_pos rfl] at hw
    injection hw with hw
    subst hw
    rw [hb, hinv uid u hu, if_pos ht]
  · rw [if_neg huid] at hw
    rw [hinv uid w hw,
      if_neg (show ¬ t.userId = uid from fun hc => huid (by rw [← hc, ht]))]
    ring

/-- The balance-ledger mutators of `src/src/sv/balance.rs`, as abstract
operations over the database (Referral::record_sale is deliberately not
among them: it mutates a balance without a ledger row). -/
inductive BalanceOp where
  | deposit (userId amount : Int) (description : Option String)
  | spend (userId amount : Int) (description referralCode : Option String)
  | addReferralBonus (userId amount : Int) (referralCode : String)
  | addCashback (userId amount : Int) (description : Option String)
  | withdraw (userId amount : Int)

/-- Run one ledger mutator, keeping the committed database state. -/
def applyBalanceOp (db : DB) (now : Int) : BalanceOp → DB
  | .deposit u a d => (Balance.deposit db u a d now).1
  | .spend u a d rc => (Balance.spend db u a d rc now).1
  | .addReferralBonus u a rc => (Balance.addReferralBonus db u a rc now).1
  | .addCashback u a d => (Balance.addCashback db u a d now).1
  | .withdraw u a => (Balance.withdraw db u a now).1

/-- Run a sequence of ledger mutators. -/
def applyBalanceOps (db : DB) (now : Int) : List BalanceOp → DB
  | [] => db
  | op :: ops => applyBalanceOps (applyBalanceOp db now op) now ops

theorem applyBalanceOp_invariant (db : DB) (now : Int) (op : BalanceOp)
    (hinv : BalanceInvariant db) :
    BalanceInvariant (applyBalanceOp db now op) := by
  cases op with
  | deposit uid a d =>
    by_cases ha : a ≤ 0
    · simpa [applyBalanceOp, Balance.deposit, ha] using hinv
    · cases hx : db.users uid with
      | none => simpa [applyBalanceOp, Balance.deposit, ha, hx] using hinv
      | some u =>
        simp only [applyBalanceOp, Balance.deposit, if_neg ha, hx]
        exact invariant_setUser_insert db uid u _ _ hx rfl rfl hinv
  | spend uid a d rc =>
    by_cases ha : a ≤ 0
    · simpa [applyBalanceOp, Balance.spend, ha] using hinv
    · cases hx : db.users uid with
      | none => simpa [applyBalanceOp, Balance.spend, ha, hx] using hinv
      | some u =>
        by_cases hbal : u.balance < a
        · simpa [applyBalanceOp, Balance.spend, ha, hx, hbal] using hinv
        · simp only [applyBalanceOp, Balance.spend, if_neg ha, hx,
            if_neg hbal]
          exact invariant_setUser_insert db uid u _ _ hx (by ring) rfl hinv
  | addReferralBonus uid a rc =>
    by_cases ha : a ≤ 0
    · simpa [applyBalanceOp, Balance.addReferralBonus, ha] using hinv
    · cases hx : db.users uid with
      | none =>
        simpa [applyBalanceOp, Balance.addReferralBonus, ha, hx] using hinv
      | some u =>
        simp only [applyBalanceOp, Balance.addReferralBonus, if_neg ha, hx]
        exact invariant_setUser_insert db uid u _ _ hx rfl rfl hinv
  | addCashback uid a d =>
    by_cases ha : a ≤ 0
    · simpa [applyBalanceOp, Balance.addCashback, ha] using hinv
    · cases hx : db.users uid with
      | none => simpa [applyBalanceOp, Balance.addCashback, ha, hx] using hinv
      | some u =>
        simp only [applyBalanceOp, Balance.addCashback, if_neg ha, hx]
        exact invariant_setUser_insert db uid u _ _ hx rfl rfl hinv
  | withdraw uid a =>
    by_cases ha : a ≤ 0
    · simpa [applyBalanceOp, Balance.withdraw, ha] using hinv
    · cases hx : db.users uid with
      | none => simpa [applyBalanceOp, Balance.withdraw, ha, hx] using hinv
      | some u =>
        by_cases hrole : u.role ≠ .creator ∧ u.role ≠ .admin
        · simpa [applyBalanceOp, Balance.withdraw, ha, hx, hrole] using hinv
        · by_cases hbal : u.balance < a
          · simpa [applyBalanceOp, Balance.withdraw, ha, hx, hrole, hbal]
              using hinv
          · simp only [applyBalanceOp, Balance.withdraw, if_neg ha, hx,
              if_neg hrole, if_neg hbal]
            exact invariant_setUser_insert db uid u _ _ hx (by ring) rfl hinv

/-- C2 (amended): the cached balance equals the sum of the user's transaction
amounts after any sequence of the ledger mutators deposit, spend,
add_referral_bonus, add_cashback and withdraw — each of them writes the
balance and inserts exactly one row in one transaction.  `record_sale` is
excluded: it mutates the balance without inserting a row. -/
theorem ledger_invariant_preserved (db : DB) (now : Int)
    (ops : List BalanceOp) (hinv : BalanceInvariant db) :
    BalanceInvariant (applyBalanceOps db now ops) := by
  induction ops generalizing db with
  | nil => exact hinv
  | cons op ops ih =>
    exact ih _ (applyBalanceOp_invariant db now op hinv)

/-- A one-user database with balance 0, commission rate 20 and an empty
transaction log. -/
def exUser : UserModel :=
  { tgUserId := 2, regDate := 0, balance := 0, role := .user,
    referredBy := none, commissionRate := 20, discountPercent := 3,
    referralSales := 0, referralEarnings := 0, referralCode := none }

/-- Database holding exactly `exUser`. -/
def exDB : DB :=
  { users := fun i => if i = 2 then some exUser else none,
    transactions := [], licenses := fun _ => none }

theorem exDB_invariant : BalanceInvariant exDB := by
  intro uid w hw
  by_cases h : uid = 2
  · subst h
    simp [exDB] at hw
    subst hw
    simp [exUser, exDB, txSum]
  · simp [exDB, h] at hw

/-- C2 counterexample: starting from a consistent database,
`Referral::record_sale` credits the commission onto the referrer's cached
balance without inserting any transaction row, so the cached balance (20) no
longer equals the sum of the user's transaction amounts (0). -/
theorem recordSale_breaks_ledger_invariant :
    BalanceInvariant exDB
    ∧ (Referral.recordSale exDB 2 100).1.transactions = []
    ∧ ((Referral.recordSale exDB 2 100).1.users 2).map UserModel.balance
        = some 20
    ∧ ¬ BalanceInvariant (Referral.recordSale exDB 2 100).1 := by
  refine ⟨exDB_invariant, rfl, by decide, fun hcontra => ?_⟩
  have h2 := hcontra 2
    { exUser with referralSales := 1, referralEarnings := 20, balance := 20 }
    (by decide)
  exact absurd h2 (by decide)

/-- Witness for `ledger_invariant_preserved`: a deposit of 100 followed by a
spend of 30 on the concrete one-user database keeps balance = sum of
transaction amounts. -/
theorem ledger_invariant_preserved_witness :
    BalanceInvariant exDB
    ∧ BalanceInvariant (applyBalanceOps exDB 5
        [BalanceOp.deposit 2 100 none, BalanceOp.spend 2 30 none none]) :=
  ⟨exDB_invariant,
    ledger_invariant_preserved exDB 5
      [BalanceOp.deposit 2 100 none, BalanceOp.spend 2 30 none none]
      exDB_invariant⟩

/-- 1 USDT in nanoUSDT (`src/src/sv/referral.rs` line 11). -/
def NANO_USDT : Int := 1000000

/-- Month-plan price in nanoUSDT (`callback.rs` line 669). -/
def MONTH_PRICE_NANO : Int := 10 * NANO_USDT

/-- A creator referrer with 20% commission and 10% discount. -/
def c3Referrer : UserModel :=
  { tgUserId := 2, regDate := 0, balance := 0, role := .creator,
    referredBy := none, commissionRate := 20, discountPercent := 10,
    referralSales := 0, referralEarnings := 0, referralCode := none }

/-- A buyer referred by user 2. -/
def c3Buyer : UserModel :=
  { tgUserId := 1, regDate := 0, balance := 9000000, role := .user,
    referredBy := some 2, commissionRate := 10, discountPercent := 3,
    referralSales := 0, referralEarnings := 0, referralCode := none }

/-- Database with the buyer and the referrer, empty transaction log. -/
def c3DB : DB :=
  { users := fun i =>
      if i = 1 then some c3Buyer
      else if i = 2 then some c3Referrer else none,
    transactions := [], licenses := fun _ => none }

/-- C3, the code evaluated at the failing input: the month plan at a 10%
discount costs 9,000,000 nanoUSDT and the claimed commission for a 20% rate
is 1,800,000 nanoUSDT, but the referral block of `handle_buy_plan` credits
the referrer twice — `record_sale` already adds the commission to the
balance and `add_referral_bonus` then adds the same amount again — leaving
the referrer's balance at 3,600,000 while `referralSales` increments by 1
and only the second credit gets a ledger row. -/
theorem buyPlan_double_commission :
    Int.tdiv (MONTH_PRICE_NANO * (100 - 10)) 100 = 9000000
    ∧ Int.tdiv (9000000 * 20) 100 = 1800000
    ∧ ((buyPlanReferralCredit c3DB 1 2 9000000 0).users 2).map
        UserModel.balance = some 3600000
    ∧ ((buyPlanReferralCredit c3DB 1 2 9000000 0).users 2).map
        UserModel.referralSales = some 1
    ∧ (buyPlanReferralCredit c3DB 1 2 9000000 0).transactions.map
        Transaction.amount = [1800000] := by
  refine ⟨by decide, by decide, by decide, by decide, by decide⟩

/-- The deposit row a refund of `price` inserts with the given note. -/
def refundRow (buyerId price now2 : Int) (note : String) : Transaction :=
  { userId := buyerId, amount := price, txType := .deposit,
    description := some note, referralCode := none, createdAt := now2 }

/-- C7: when a spend of `price` succeeded for the buyer and license creation
or extension then fails, the compensating refund (run on any later state
`db2` in which the buyer's balance is still the post-spend one — the
referral block only touches the referrer) deposits the full price back with
the note identifying the failed operation, restoring the buyer's balance to
its pre-purchase value, in both the buy and the extend flow. -/
theorem purchase_refund_restores_balance (db db2 : DB)
    (buyerId price now now2 : Int) (d rc : Option String)
    (u v0 : UserModel) (nb : Int)
    (hu : db.users buyerId = some u)
    (hs : (Balance.spend db buyerId price d rc now).2 = .ok nb)
    (hv0 : db2.users buyerId = some v0) (hbal : v0.balance = nb) :
    ((buyPlanRefund db2 buyerId price now2).users buyerId).map
        UserModel.balance = some u.balance
    ∧ (buyPlanRefund db2 buyerId price now2).transactions
        = db2.transactions
          ++ [refundRow buyerId price now2 "Refund: license creation failed"]
    ∧ ((extendPlanRefund db2 buyerId price now2).users buyerId).map
        UserModel.balance = some u.balance
    ∧ (extendPlanRefund db2 buyerId price now2).transactions
        = db2.transactions
          ++ [refundRow buyerId price now2
                "Refund: license extension failed"] := by
  have hp : ¬ price ≤ 0 := by
    intro hple
    simp [Balance.spend, hple] at hs
  have hnb : nb = u.balance - price := by
    have hs' := hs
    simp only [Balance.spend, hu] at hs'
    rw [if_neg hp] at hs'
    by_cases hlt : u.balance < price
    · rw [if_pos hlt] at hs'
      simp at hs'
    · rw [if_neg hlt] at hs'
      simp at hs'
      exact hs'.symm
  have hdep : ∀ note : String,
      Balance.deposit db2 buyerId price (some note) now2
        = ((db2.setUser buyerId
              { v0 with balance := v0.balance + price }).insertTransaction
            { userId := buyerId, amount := price, txType := .deposit,
              description := some note, referralCode := none,
              createdAt := now2 },
           .ok (v0.balance + price)) := by
    intro note
    simp only [Balance.deposit, hv0]
    rw [if_neg hp]
  have hvb : v0.balance + price = u.balance := by
    rw [hbal, hnb]; ring
  refine ⟨?_, ?_, ?_, ?_⟩ <;>
    simp [buyPlanRefund, extendPlanRefund, hdep, DB.setUser,
      DB.insertTransaction, hvb, refundRow]

/-- A buyer with balance 50 for the refund witness. -/
def c7Buyer : UserModel :=
  { tgUserId := 1, regDate := 0, balance := 50, role := .user,
    referredBy := none, commissionRate := 10, discountPercent := 3,
    referralSales := 0, referralEarnings := 0, referralCode := none }

/-- Database holding exactly `c7Buyer`. -/
def c7DB : DB :=
  { users := fun i => if i = 1 then some c7Buyer else none,
    transactions := [], licenses := fun _ => none }

/-- Witness for `purchase_refund_restores_balance`: after spending 20 out of
50 and a failed license creation, the refund restores balance 50. -/
theorem purchase_refund_restores_balance_witness :
    (Balance.spend c7DB 1 20 none none 0).2 = .ok 30
    ∧ ((buyPlanRefund (Balance.spend c7DB 1 20 none none 0).1 1 20 9).users
        1).map UserModel.balance = some c7Buyer.balance := by
  refine ⟨by decide, ?_⟩
  exact (purchase_refund_restores_balance c7DB
    (Balance.spend c7DB 1 20 none none 0).1 1 20 0 9 none none c7Buyer
    { c7Buyer with balance := 30 } 30 (by decide) (by decide) (by decide)
    (by decide)).1
